import Mathlib

/-!
Verification of the Dactyl `OasAutogenBuilder` specification-assembly engine
(`oasAutogenBuilder.ts`) against its natural-language specification.

The engine is a pure transformation: it walks a list of controller metadata
records, resolves default response codes, filters and relabels argument
descriptors, merges per-route operations into a path table, and wraps the
result in an OpenAPI-like document.  We embed the data model and the `build`
pipeline shallowly: TypeScript `Map`s and plain objects become association
lists (first-match lookup, in-place overwrite preserving key order, exactly
as JavaScript objects behave), optional fields become `Option`, and the
JavaScript truthiness test `!meta.prefix` is embedded as an explicit check
for `none` or the empty string.
-/

/-- Modelled from the spec: the HTTP request method enumeration
("one of a fixed enumeration: GET, POST, PUT, DELETE, PATCH, …");
the defining file `types.ts` is not part of the sources provided.
Only the POST / non-POST distinction is ever inspected by the engine. -/
inductive HttpMethod where
  | GET
  | POST
  | PUT
  | DELETE
  | PATCH
  deriving DecidableEq, Repr

/-- Modelled from the spec: the argument-binding kind enumeration
("one of PARAM, QUERY, BODY, CONTEXT, REQUEST, HEADER, …");
the defining file `types.ts` is not part of the sources provided. -/
inductive ArgsType where
  | PARAM
  | QUERY
  | HEADER
  | BODY
  | CONTEXT
  | REQUEST
  | RESPONSE
  deriving DecidableEq, Repr

/-- Modelled from the spec: `ArgsType` is a string enum in `types.ts`
(not part of the sources provided) and, per the spec, each retained
non-PARAM kind "keep[s] their own type label as the `in` location directly
(e.g., QUERY stays representable as a query location, HEADER as a header
location)". -/
def ArgsType.label : ArgsType → String
  | .PARAM => "param"
  | .QUERY => "query"
  | .HEADER => "header"
  | .BODY => "body"
  | .CONTEXT => "context"
  | .REQUEST => "request"
  | .RESPONSE => "response"

/-- `RouteDefinition`: one HTTP-method-bound operation within a controller. -/
structure RouteDefinition where
  methodName : String
  path : String
  requestMethod : HttpMethod
  deriving DecidableEq, Repr

/-- The `model` payload of a `DocDefinition` (only `description` is read). -/
structure DocModel where
  description : String
  deriving DecidableEq, Repr

/-- `DocDefinition`: documentation metadata joined to a route by `docFor`. -/
structure DocDefinition where
  docFor : String
  model : DocModel
  deriving DecidableEq, Repr

/-- `RouteArgument`: one argument-binding descriptor, joined to a route by
`argFor`. -/
structure RouteArgument where
  argFor : String
  type : ArgsType
  key : String
  deriving DecidableEq, Repr

/-- A controller metadata record, as destructured by `build`.  The `prefix`
field is optional (`prefixStr = none` models an absent prefix; JavaScript
additionally treats the empty string as falsy).  The `Map`-typed fields
`defaultResponseCodes` and `argTypes` are embedded as association lists. -/
structure ControllerMetadata where
  prefixStr : Option String
  routes : List RouteDefinition
  docs : List DocDefinition
  defaultResponseCodes : List (String × Nat)
  args : List RouteArgument
  argTypes : List (String × List String)
  deriving DecidableEq, Repr

/-- First-match association-list lookup: `Map.get` / JavaScript property
access, returning `none` for a missing key. -/
def lookupKey {K V : Type} [DecidableEq K] : List (K × V) → K → Option V
  | [], _ => none
  | (k, v) :: rest, k' => if k' = k then some v else lookupKey rest k'

/-- Association-list update with JavaScript object-assignment semantics:
an existing key is overwritten in place (its position in iteration order is
kept); a new key is appended at the end. -/
def setKey {K V : Type} [DecidableEq K] : List (K × V) → K → V → List (K × V)
  | [], k, v => [(k, v)]
  | (k', v') :: rest, k, v =>
      if k = k' then (k, v) :: rest else (k', v') :: setKey rest k v

/-- The retained-argument record after the `.map` step of `build`
(lines 120–127): the spread `{...arg, type: "path"}` replaces the `type`
field of a PARAM descriptor by the literal string `"path"`; every other
retained descriptor keeps its own type label (the enum's string value). -/
structure MappedArgument where
  argFor : String
  type : String
  key : String
  deriving DecidableEq, Repr

/-- The filter predicate of `build` lines 115–119: keep an argument
descriptor when its `argFor` is the route's `methodName` and its type is
none of BODY, CONTEXT, REQUEST, RESPONSE. -/
def keepArg (name : String) (a : RouteArgument) : Bool :=
  a.argFor == name &&
    a.type != ArgsType.BODY && a.type != ArgsType.CONTEXT &&
    a.type != ArgsType.REQUEST && a.type != ArgsType.RESPONSE

/-- The map step of `build` lines 120–127: PARAM descriptors are relabelled
to the literal `"path"`; all other retained descriptors carry their own
type label. -/
def mapArg (a : RouteArgument) : MappedArgument :=
  if a.type == ArgsType.PARAM then
    { argFor := a.argFor, type := "path", key := a.key }
  else
    { argFor := a.argFor, type := a.type.label, key := a.key }

/-- `filteredArgs` of `build` lines 115–127. -/
def filteredArgs (args : List RouteArgument) (name : String) :
    List MappedArgument :=
  (args.filter (keepArg name)).map mapArg

/-- `schema` of an emitted parameter object; `type = none` models the
JavaScript `undefined` obtained by indexing `filteredArgTypes` past its
end. -/
structure SchemaObj where
  type : Option String
  deriving DecidableEq, Repr

/-- One emitted parameter object `{name, in, schema}` (the `in` field is
called `inLoc` here because `in` is a Lean keyword). -/
structure ParameterObject where
  name : String
  inLoc : String
  schema : SchemaObj
  deriving DecidableEq, Repr

/-- One emitted response object `{description}`. -/
structure ResponseObj where
  description : String
  deriving DecidableEq, Repr

/-- One assembled operation: `description`, `responses` (status-code string
to response object) and the ordered `parameters` list. -/
structure Operation where
  description : String
  responses : List (String × ResponseObj)
  parameters : List ParameterObject
  deriving DecidableEq, Repr

/-- `filteredArgs.map((arg, index) => ...)` of `build` lines 145–154, with
the explicit running index of `Array.prototype.map`. -/
def mapIdxFrom {α β : Type} (f : Nat → α → β) : Nat → List α → List β
  | _, [] => []
  | i, a :: as => f i a :: mapIdxFrom f (i + 1) as

/-- The parameter object built at position `i` (`build` lines 148–154):
`name` from the argument's `key`, `in` from its (possibly relabelled) type,
and `schema.type` from `filteredArgTypes[index]`. -/
def mkParameter (filteredArgTypes : List String) (i : Nat)
    (a : MappedArgument) : ParameterObject :=
  { name := a.key, inLoc := a.type, schema := { type := filteredArgTypes[i]? } }

/-- `filteredArgTypes` of `build` lines 129–130:
`argTypes.get(methodName) ?? []`. -/
def routeArgTypes (m : ControllerMetadata) (r : RouteDefinition) :
    List String :=
  (lookupKey m.argTypes r.methodName).getD []

/-- The effective response code of `build` lines 110–113: the explicit
entry of `defaultResponseCodes` when present, otherwise 201 for POST and
200 for every other method. -/
def resolveCode (m : ControllerMetadata) (r : RouteDefinition) : Nat :=
  match lookupKey m.defaultResponseCodes r.methodName with
  | some c => c
  | none => if r.requestMethod == HttpMethod.POST then 201 else 200

/-- The operation value assembled for one route (`build` lines 104–155):
description from the matching `DocDefinition` (falling back to the literal
`methodName`), a single response entry keyed by the effective status code
(a JavaScript computed key stringifies the number), and the projected
parameter list. -/
def buildOperation (m : ControllerMetadata) (r : RouteDefinition) :
    Operation :=
  let docDef : Option DocDefinition :=
    m.docs.find? (fun d => d.docFor == r.methodName)
  { description :=
      match docDef with
      | some d => d.model.description
      | none => r.methodName,
    responses := [(toString (resolveCode m r), { description := "" })],
    parameters :=
      mapIdxFrom (mkParameter (routeArgTypes m r)) 0
        (filteredArgs m.args r.methodName) }

/-- A path item: HTTP method to operation, in insertion order. -/
abbrev PathItem := List (HttpMethod × Operation)

/-- The `paths` table: full path string to path item, in insertion order. -/
abbrev OasPathsRoot := List (String × PathItem)

/-- One route's insertion into the path table (`build` lines 132–155):
the key is the exact concatenation `prefix + routeDef.path`; a missing
path entry is created empty, then the route's method slot is written
(overwriting any previous occupant). -/
def insertRoute (m : ControllerMetadata) (p : String) (paths : OasPathsRoot)
    (r : RouteDefinition) : OasPathsRoot :=
  let requestPath : String := p ++ r.path
  let item : PathItem := (lookupKey paths requestPath).getD []
  setKey paths requestPath (setKey item r.requestMethod (buildOperation m r))

/-- One controller's contribution to the path table (`build` lines 94–156).
`meta = none` models `getControllerOwnMeta` returning `undefined`; the
JavaScript guard `!meta || !meta.prefix` also skips a present but empty
prefix string. -/
def processController (paths : OasPathsRoot)
    (meta : Option ControllerMetadata) : OasPathsRoot :=
  match meta with
  | none => paths
  | some m =>
    match m.prefixStr with
    | none => paths
    | some p =>
      if p = "" then paths
      else m.routes.foldl (insertRoute m p) paths

/-- The whole path-table construction of `build`: fold every controller's
metadata lookup result, in declared order, over an initially empty table. -/
def buildPaths (controllers : List (Option ControllerMetadata)) :
    OasPathsRoot :=
  controllers.foldl processController []

/-- `info` block of the output document. -/
structure Info where
  title : String
  version : String
  description : String
  deriving DecidableEq, Repr

/-- The `components` skeleton (`build` lines 80–90): nine sub-maps, all
created empty and never populated. -/
structure Components where
  schemas : List (String × String)
  responses : List (String × String)
  parameters : List (String × String)
  examples : List (String × String)
  requestBodies : List (String × String)
  headers : List (String × String)
  securitySchemes : List (String × String)
  links : List (String × String)
  callbacks : List (String × String)
  deriving DecidableEq, Repr

/-- The empty `components` literal written by `build`. -/
def emptyComponents : Components :=
  { schemas := [], responses := [], parameters := [], examples := [],
    requestBodies := [], headers := [], securitySchemes := [], links := [],
    callbacks := [] }

/-- The output document root. -/
structure OpenApiSpecRoot where
  openapi : String
  info : Info
  paths : OasPathsRoot
  components : Components
  deriving DecidableEq, Repr

namespace OasAutogenBuilder

def OAS_VERSION : String := "3.0.0"

def APP_VERSION : String := "1.0.0"

def DEFAULT_TITLE : String :=
  "OpenAPI Spec " ++ OAS_VERSION ++ " compliant documentation"

def DEFAULT_DESC : String := "Autogenerated OAS documentation by Dactyl"

end OasAutogenBuilder

/-- The builder's instance state: the three configurable header fields and
the application's controller list (each controller represented by the
result of its metadata lookup, per the input-boundary contract). -/
structure OasAutogenBuilder where
  title : String
  desc : String
  applicationVersion : String
  controllers : List (Option ControllerMetadata)
  deriving DecidableEq, Repr

namespace OasAutogenBuilder

/-- The constructor: header fields take their documented defaults. -/
def ofControllers (cs : List (Option ControllerMetadata)) :
    OasAutogenBuilder :=
  { title := DEFAULT_TITLE, desc := DEFAULT_DESC,
    applicationVersion := APP_VERSION, controllers := cs }

/-- `addTitle`: sets `info.title`, returns the builder for chaining. -/
def addTitle (b : OasAutogenBuilder) (t : String) : OasAutogenBuilder :=
  { b with title := t }

/-- `addDesc`: sets `info.description`, returns the builder for chaining. -/
def addDesc (b : OasAutogenBuilder) (d : String) : OasAutogenBuilder :=
  { b with desc := d }

/-- `addApplicationVersion`: sets `info.version`, returns the builder. -/
def addApplicationVersion (b : OasAutogenBuilder) (v : String) :
    OasAutogenBuilder :=
  { b with applicationVersion := v }

/-- `build` (lines 71–160): assembles the document from the current header
configuration and the controllers' metadata.  The instance state is read
but never written, so the pair returned models the post-call state; the
serialisation of the document to its destination is outside the engine's
contract. -/
def build (b : OasAutogenBuilder) : OpenApiSpecRoot × OasAutogenBuilder :=
  ({ openapi := OAS_VERSION,
     info := { title := b.title, version := b.applicationVersion,
               description := b.desc },
     paths := buildPaths b.controllers,
     components := emptyComponents }, b)

end OasAutogenBuilder

/-- Lookup of the operation stored for a path and method in the table. -/
def lookupOp (paths : OasPathsRoot) (P : String) (M : HttpMethod) :
    Option Operation :=
  match lookupKey paths P with
  | none => none
  | some item => lookupKey item M

/-- One route-processing event of the `build` loop: the owning controller's
metadata, its (truthy) prefix, and the route. -/
structure RouteEvent where
  meta : ControllerMetadata
  pfx : String
  route : RouteDefinition
  deriving DecidableEq, Repr

/-- The events one controller contributes, in route-declaration order
(none when its metadata is absent or its prefix is falsy). -/
def controllerEvents (meta : Option ControllerMetadata) : List RouteEvent :=
  match meta with
  | none => []
  | some m =>
    match m.prefixStr with
    | none => []
    | some p =>
      if p = "" then []
      else m.routes.map (fun r => { meta := m, pfx := p, route := r })

/-- The full processing sequence of `build`: controllers in declared order,
routes in declaration order within each. -/
def routeEvents (controllers : List (Option ControllerMetadata)) :
    List RouteEvent :=
  controllers.flatMap controllerEvents

/-- The last element of a list satisfying a predicate (the "processed last
in declared input order" element). -/
def findLast {α : Type} (p : α → Bool) : List α → Option α
  | [] => none
  | a :: l =>
    match findLast p l with
    | some b => some b
    | none => if p a then some a else none

/-- Whether a processing event writes the slot for path `P` and method `M`. -/
def matchEvent (P : String) (M : HttpMethod) (e : RouteEvent) : Bool :=
  e.pfx ++ e.route.path == P && e.route.requestMethod == M

/-- One processing step of the flattened `build` loop. -/
def stepEvent (ps : OasPathsRoot) (e : RouteEvent) : OasPathsRoot :=
  insertRoute e.meta e.pfx ps e.route

/-- A concrete route with two retained QUERY arguments (for exercising the
positional type zip). -/
def exRoute4 : RouteDefinition :=
  { methodName := "list", path := "", requestMethod := HttpMethod.GET }

/-- A concrete controller whose `argTypes` entry for `"list"` is shorter
than its retained argument list. -/
def exMeta4 : ControllerMetadata :=
  { prefixStr := some "/pets", routes := [exRoute4], docs := [],
    defaultResponseCodes := [],
    args := [{ argFor := "list", type := ArgsType.QUERY, key := "limit" },
             { argFor := "list", type := ArgsType.QUERY, key := "offset" }],
    argTypes := [("list", ["number"])] }

/-- The second emitted parameter of `exMeta4`/`exRoute4`: past the end of
the registered type list, so its schema type is absent. -/
def exParam4 : ParameterObject :=
  { name := "offset", inLoc := "query", schema := { type := none } }

/-- A concrete controller that does contribute a route. -/
def exMeta6 : ControllerMetadata :=
  { prefixStr := some "/ok",
    routes := [{ methodName := "ping", path := "/ping",
                 requestMethod := HttpMethod.GET }],
    docs := [], defaultResponseCodes := [], args := [], argTypes := [] }

/-- A concrete controller metadata record without a prefix but with a
route, which must be skipped entirely. -/
def exSkip6 : ControllerMetadata :=
  { prefixStr := none,
    routes := [{ methodName := "hidden", path := "/hidden",
                 requestMethod := HttpMethod.GET }],
    docs := [], defaultResponseCodes := [], args := [], argTypes := [] }

/-- A concrete route using path-parameter syntax in its relative path. -/
def exRoute7 : RouteDefinition :=
  { methodName := "getUserById", path := "/:id",
    requestMethod := HttpMethod.GET }

/-- A concrete controller with prefix `"/users"`. -/
def exMeta7 : ControllerMetadata :=
  { prefixStr := some "/users", routes := [exRoute7], docs := [],
    defaultResponseCodes := [], args := [], argTypes := [] }

/-- A concrete controller metadata record whose prefix is present but is
the empty string. -/
def exMeta10 : ControllerMetadata :=
  { prefixStr := some "",
    routes := [{ methodName := "root", path := "/", requestMethod := HttpMethod.GET }],
    docs := [], defaultResponseCodes := [], args := [], argTypes := [] }

theorem lookupKey_setKey {K V : Type} [DecidableEq K] (l : List (K × V))
    (k k' : K) (v : V) :
    lookupKey (setKey l k v) k' = if k' = k then some v else lookupKey l k' := by
  induction l with
  | nil => by_cases h : k' = k <;> simp [setKey, lookupKey, h]
  | cons a rest ih =>
    obtain ⟨ka, va⟩ := a
    by_cases hk : k = ka
    · subst hk
      by_cases h : k' = k <;> simp [setKey, lookupKey, h]
    · by_cases h : k' = ka
      · subst h
        have h2 : ¬ k' = k := fun e => hk e.symm
        simp [setKey, lookupKey, hk, h2]
      · simp [setKey, lookupKey, hk, h, ih]

theorem lookupOp_insertRoute (m : ControllerMetadata) (p : String)
    (paths : OasPathsRoot) (r : RouteDefinition) (P : String) (M : HttpMethod) :
    lookupOp (insertRoute m p paths r) P M =
      if P = p ++ r.path ∧ M = r.requestMethod then some (buildOperation m r)
      else lookupOp paths P M := by
  by_cases hP : P = p ++ r.path
  · subst hP
    by_cases hM : M = r.requestMethod
    · subst hM
      simp [lookupOp, insertRoute, lookupKey_setKey]
    · rw [if_neg (show ¬(p ++ r.path = p ++ r.path ∧ M = r.requestMethod) from
        fun hc => hM hc.2)]
      simp only [lookupOp, insertRoute, lookupKey_setKey, if_pos rfl,
        if_neg hM]
      cases h : lookupKey paths (p ++ r.path) <;>
        simp [lookupKey, h, lookupKey_setKey, hM]
  · rw [if_neg (show ¬(P = p ++ r.path ∧ M = r.requestMethod) from
      fun hc => hP hc.1)]
    simp [lookupOp, insertRoute, lookupKey_setKey, hP]

theorem processController_eq (paths : OasPathsRoot)
    (meta : Option ControllerMetadata) :
    processController paths meta = (controllerEvents meta).foldl stepEvent paths := by
  cases meta with
  | none => rfl
  | some m =>
    cases hp : m.prefixStr with
    | none => simp [processController, controllerEvents, hp]
    | some p =>
      by_cases h : p = ""
      · simp [processController, controllerEvents, hp, h]
      · simp only [processController, controllerEvents, hp, if_neg h]
        rw [List.foldl_map]
        rfl

theorem foldl_processController_eq (cs : List (Option ControllerMetadata))
    (acc : OasPathsRoot) :
    cs.foldl processController acc = (cs.flatMap controllerEvents).foldl stepEvent acc := by
  induction cs generalizing acc with
  | nil => rfl
  | cons c cs ih =>
    rw [List.foldl_cons, List.flatMap_cons, List.foldl_append, ih,
      processController_eq]

theorem lookupOp_foldl_stepEvent (evs : List RouteEvent) (acc : OasPathsRoot)
    (P : String) (M : HttpMethod) :
    lookupOp (evs.foldl stepEvent acc) P M =
      match findLast (matchEvent P M) evs with
      | some e => some (buildOperation e.meta e.route)
      | none => lookupOp acc P M := by
  induction evs generalizing acc with
  | nil => rfl
  | cons e evs ih =>
    rw [List.foldl_cons, ih]
    cases h : findLast (matchEvent P M) evs with
    | some e' => simp [findLast, h]
    | none =>
      simp only [findLast, h, stepEvent, lookupOp_insertRoute]
      by_cases hP : P = e.pfx ++ e.route.path
      · by_cases hM : M = e.route.requestMethod
        · simp [matchEvent, hP, hM]
        · have hM2 : ¬ e.route.requestMethod = M := fun hc => hM hc.symm
          simp [matchEvent, hP, hM, hM2]
      · have hP2 : ¬ e.pfx ++ e.route.path = P := fun hc => hP hc.symm
        simp [matchEvent, hP, hP2]

theorem length_mapIdxFrom {α β : Type} (f : Nat → α → β) (k : Nat)
    (l : List α) :
    (mapIdxFrom f k l).length = l.length := by
  induction l generalizing k with
  | nil => rfl
  | cons a l ih => simp [mapIdxFrom, ih]

theorem getElem?_mapIdxFrom {α β : Type} (f : Nat → α → β) (k i : Nat)
    (l : List α) :
    (mapIdxFrom f k l)[i]? = (l[i]?).map (f (k + i)) := by
  induction l generalizing k i with
  | nil => simp [mapIdxFrom]
  | cons a l ih =>
    cases i with
    | zero => simp [mapIdxFrom]
    | succ n =>
      rw [show mapIdxFrom f k (a :: l) = f k a :: mapIdxFrom f (k + 1) l
        from rfl]
      simp only [List.getElem?_cons_succ]
      rw [ih]
      have hidx : k + 1 + n = k + (n + 1) := by omega
      rw [hidx]

theorem map_inLoc_mapIdxFrom (ts : List String) (k : Nat)
    (l : List MappedArgument) :
    ((mapIdxFrom (mkParameter ts) k l).map fun q => q.inLoc) =
      l.map fun a => a.type := by
  induction l generalizing k with
  | nil => rfl
  | cons a l ih => simp [mapIdxFrom, mkParameter, ih]

theorem map_schema_mapIdxFrom (ts : List String) (k : Nat)
    (l : List MappedArgument) :
    ((mapIdxFrom (mkParameter ts) k l).map fun q => q.schema.type) =
      (List.range l.length).map fun i => ts[k + i]? := by
  induction l generalizing k with
  | nil => rfl
  | cons a l ih =>
    rw [show mapIdxFrom (mkParameter ts) k (a :: l) =
      mkParameter ts k a :: mapIdxFrom (mkParameter ts) (k + 1) l from rfl]
    simp only [List.length_cons, List.range_succ_eq_map, List.map_cons,
      List.map_map]
    rw [ih]
    have hidx : ∀ i : Nat, k + 1 + i = k + (i + 1) := fun i => by omega
    simp [mkParameter, Function.comp, hidx]

theorem mapArg_type (a : RouteArgument) :
    (mapArg a).type =
      if a.type = ArgsType.PARAM then "path" else a.type.label := by
  unfold mapArg
  by_cases h : a.type = ArgsType.PARAM <;> simp [h]

theorem keepArg_eq_decide (name : String) (a : RouteArgument) :
    keepArg name a =
      decide (a.argFor = name ∧ a.type ≠ ArgsType.BODY ∧
        a.type ≠ ArgsType.CONTEXT ∧ a.type ≠ ArgsType.REQUEST ∧
        a.type ≠ ArgsType.RESPONSE) := by
  rw [Bool.eq_iff_iff]
  simp [keepArg, and_assoc]

/-- Claim C1: for every route, the effective response status code used as
the sole key of the operation's responses mapping is the explicit code from
`defaultResponseCodes` for that route's `methodName` when one exists;
otherwise 201 when the route's `requestMethod` is POST; otherwise 200. -/
theorem response_code_resolution (m : ControllerMetadata)
    (r : RouteDefinition) :
    (buildOperation m r).responses =
      [(toString ((lookupKey m.defaultResponseCodes r.methodName).getD
          (if r.requestMethod = HttpMethod.POST then 201 else 200)),
        { description := "" })] := by
  have hR : (buildOperation m r).responses =
      [(toString (resolveCode m r), { description := "" })] := rfl
  rw [hR]
  unfold resolveCode
  cases h : lookupKey m.defaultResponseCodes r.methodName with
  | some c => simp
  | none => by_cases hp : r.requestMethod = HttpMethod.POST <;> simp [hp]

/-- Claim C2: for every route, the assembled parameters list is built from
exactly the argument descriptors whose `argFor` equals the route's
`methodName` and whose type is none of BODY, CONTEXT, REQUEST, RESPONSE
(so no descriptor of those four kinds ever reaches the parameters list),
and the retained descriptors form an order-preserving sublist of the
original declaration sequence. -/
theorem argument_exclusion (m : ControllerMetadata) (r : RouteDefinition) :
    (buildOperation m r).parameters =
      mapIdxFrom (mkParameter (routeArgTypes m r)) 0
        ((m.args.filter fun a =>
            decide (a.argFor = r.methodName ∧ a.type ≠ ArgsType.BODY ∧
              a.type ≠ ArgsType.CONTEXT ∧ a.type ≠ ArgsType.REQUEST ∧
              a.type ≠ ArgsType.RESPONSE)).map mapArg) ∧
    List.Sublist (m.args.filter (keepArg r.methodName)) m.args := by
  constructor
  · show mapIdxFrom (mkParameter (routeArgTypes m r)) 0
      (filteredArgs m.args r.methodName) = _
    unfold filteredArgs
    rw [List.filter_congr (fun a _ => keepArg_eq_decide r.methodName a)]
  · exact List.filter_sublist _

/-- Claim C3: for every retained argument descriptor of type PARAM, the
emitted parameter entry has `in` equal to the literal string `"path"`;
every other retained descriptor's entry has `in` equal to its own original
type label. -/
theorem param_relabelling (m : ControllerMetadata) (r : RouteDefinition) :
    ((buildOperation m r).parameters.map fun q => q.inLoc) =
      (m.args.filter (keepArg r.methodName)).map fun a =>
        if a.type = ArgsType.PARAM then "path" else a.type.label := by
  have hP : (buildOperation m r).parameters =
      mapIdxFrom (mkParameter (routeArgTypes m r)) 0
        (filteredArgs m.args r.methodName) := rfl
  rw [hP, map_inLoc_mapIdxFrom]
  unfold filteredArgs
  rw [List.map_map]
  apply List.map_congr_left
  intro a _
  show (mapArg a).type = _
  exact mapArg_type a

/-- Claim C4: the i-th retained argument's `schema.type` is the i-th entry
of the route's `argTypes` sequence (an absent entry is treated as the empty
sequence), and when that sequence is shorter than the retained argument
sequence the trailing parameters receive an absent schema type; assembly is
total, so no error can be raised. -/
theorem positional_type_zip (m : ControllerMetadata) (r : RouteDefinition) :
    ((buildOperation m r).parameters.map fun q => q.schema.type) =
      ((List.range (m.args.filter (keepArg r.methodName)).length).map
        fun i => (routeArgTypes m r)[i]?) ∧
    ∀ i q, (routeArgTypes m r).length ≤ i →
      (buildOperation m r).parameters[i]? = some q → q.schema.type = none := by
  constructor
  · show ((mapIdxFrom (mkParameter (routeArgTypes m r)) 0
      (filteredArgs m.args r.methodName)).map fun q => q.schema.type) = _
    rw [map_schema_mapIdxFrom]
    unfold filteredArgs
    rw [List.length_map]
    apply List.map_congr_left
    intro i _
    simp
  · intro i q hlen hq
    have h2 : (mapIdxFrom (mkParameter (routeArgTypes m r)) 0
        (filteredArgs m.args r.methodName))[i]? = some q := hq
    rw [getElem?_mapIdxFrom] at h2
    cases hf : (filteredArgs m.args r.methodName)[i]? with
    | none => rw [hf] at h2; simp at h2
    | some a =>
      rw [hf] at h2
      simp only [Option.map_some', Option.some.injEq] at h2
      rw [← h2]
      simp [mkParameter, List.getElem?_eq_none hlen]

/-- Claim C4, witness: with two retained QUERY arguments and a one-entry
type list, the second parameter exists and its schema type is absent. -/
theorem positional_type_zip_witness :
    (routeArgTypes exMeta4 exRoute4).length ≤ 1 ∧
    (buildOperation exMeta4 exRoute4).parameters[1]? = some exParam4 ∧
    exParam4.schema.type = none :=
  ⟨by decide, by decide,
    (positional_type_zip exMeta4 exRoute4).2 1 exParam4 (by decide) (by decide)⟩

/-- Claim C5: for any input, the final document's entry at any path and
method equals the operation assembled from whichever route-processing event
for that path and method occurs last in declared input order (controllers
in declared order, routes in declaration order), and is absent when no
event targets that slot; the assembly is total, so no error or warning can
be produced. -/
theorem last_write_wins (cs : List (Option ControllerMetadata)) (P : String)
    (M : HttpMethod) :
    lookupOp (buildPaths cs) P M =
      (findLast (matchEvent P M) (routeEvents cs)).map
        fun e => buildOperation e.meta e.route := by
  unfold buildPaths routeEvents
  rw [foldl_processController_eq, lookupOp_foldl_stepEvent]
  cases hF : findLast (matchEvent P M) (cs.flatMap controllerEvents) <;>
    simp [hF, lookupOp, lookupKey]

/-- Claim C6: a controller whose metadata lookup returns nothing, and a
controller metadata record whose prefix is absent, contribute zero entries
to the output paths mapping (removing either from the input leaves the
table unchanged); processing is total, so no error is raised. -/
theorem skip_rule (cs1 cs2 : List (Option ControllerMetadata))
    (m : ControllerMetadata) (h : m.prefixStr = none) :
    buildPaths (cs1 ++ some m :: cs2) = buildPaths (cs1 ++ cs2) ∧
    buildPaths (cs1 ++ none :: cs2) = buildPaths (cs1 ++ cs2) := by
  unfold buildPaths
  constructor <;>
  · rw [List.foldl_append, List.foldl_append, List.foldl_cons]
    simp [processController, h]

/-- Claim C6, witness: inserting a prefixless controller (with a route) or
an absent-metadata controller after a real controller leaves the built
path table unchanged. -/
theorem skip_rule_witness :
    buildPaths ([some exMeta6] ++ some exSkip6 :: []) =
      buildPaths ([some exMeta6] ++ []) ∧
    buildPaths ([some exMeta6] ++ none :: []) =
      buildPaths ([some exMeta6] ++ []) :=
  skip_rule [some exMeta6] [] exSkip6 rfl

/-- Claim C7: a processed route is inserted under exactly the concatenation
of the controller's prefix and the route's path, and no other key of the
table is affected (no normalization or rewriting of path-parameter syntax
happens). -/
theorem path_concatenation (m : ControllerMetadata) (p : String)
    (paths : OasPathsRoot) (r : RouteDefinition) :
    lookupOp (insertRoute m p paths r) (p ++ r.path) r.requestMethod =
      some (buildOperation m r) ∧
    ∀ P M, P ≠ p ++ r.path →
      lookupOp (insertRoute m p paths r) P M = lookupOp paths P M := by
  constructor
  · rw [lookupOp_insertRoute]
    simp
  · intro P M hP
    rw [lookupOp_insertRoute]
    rw [if_neg (show ¬(P = p ++ r.path ∧ M = r.requestMethod) from
      fun hc => hP hc.1)]

/-- Claim C7, witness: prefix `"/users"` and route path `"/:id"` yield
exactly the key `"/users/:id"`, and a different key stays untouched. -/
theorem path_concatenation_witness :
    lookupOp (insertRoute exMeta7 "/users" [] exRoute7) "/users/:id"
      HttpMethod.GET = some (buildOperation exMeta7 exRoute7) ∧
    lookupOp (insertRoute exMeta7 "/users" [] exRoute7) "/users"
      HttpMethod.GET = none := by
  have h := path_concatenation exMeta7 "/users" [] exRoute7
  constructor
  · exact h.1
  · rw [h.2 "/users" HttpMethod.GET (by decide)]
    rfl

/-- Claim C8: for a fixed controller metadata input and fixed header
configuration, invoking `build` twice yields structurally identical
documents; `build` reads but never writes the builder's state. -/
theorem build_deterministic (b : OasAutogenBuilder) :
    (OasAutogenBuilder.build b).2 = b ∧
    (OasAutogenBuilder.build ((OasAutogenBuilder.build b).2)).1 =
      (OasAutogenBuilder.build b).1 :=
  ⟨rfl, rfl⟩

/-- Claim C9: with zero controllers, the built document has an empty paths
mapping and all nine components sub-maps empty, while its info block is
fully populated (with the documented defaults, or with the configured
overrides), and the openapi field carries the fixed version string. -/
theorem empty_application_document (t d v : String) :
    ((OasAutogenBuilder.ofControllers []).build.1.paths = [] ∧
     (OasAutogenBuilder.ofControllers []).build.1.components.schemas = [] ∧
     (OasAutogenBuilder.ofControllers []).build.1.components.responses = [] ∧
     (OasAutogenBuilder.ofControllers []).build.1.components.parameters = [] ∧
     (OasAutogenBuilder.ofControllers []).build.1.components.examples = [] ∧
     (OasAutogenBuilder.ofControllers []).build.1.components.requestBodies = [] ∧
     (OasAutogenBuilder.ofControllers []).build.1.components.headers = [] ∧
     (OasAutogenBuilder.ofControllers []).build.1.components.securitySchemes = [] ∧
     (OasAutogenBuilder.ofControllers []).build.1.components.links = [] ∧
     (OasAutogenBuilder.ofControllers []).build.1.components.callbacks = [] ∧
     (OasAutogenBuilder.ofControllers []).build.1.info =
       { title := OasAutogenBuilder.DEFAULT_TITLE,
         version := OasAutogenBuilder.APP_VERSION,
         description := OasAutogenBuilder.DEFAULT_DESC } ∧
     (OasAutogenBuilder.ofControllers []).build.1.openapi =
       OasAutogenBuilder.OAS_VERSION) ∧
    (((((OasAutogenBuilder.ofControllers []).addTitle t).addDesc
        d).addApplicationVersion v).build.1.paths = [] ∧
     ((((OasAutogenBuilder.ofControllers []).addTitle t).addDesc
        d).addApplicationVersion v).build.1.components = emptyComponents ∧
     ((((OasAutogenBuilder.ofControllers []).addTitle t).addDesc
        d).addApplicationVersion v).build.1.info =
       { title := t, version := v, description := d } ∧
     ((((OasAutogenBuilder.ofControllers []).addTitle t).addDesc
        d).addApplicationVersion v).build.1.openapi =
       OasAutogenBuilder.OAS_VERSION) :=
  ⟨⟨rfl, rfl, rfl, rfl, rfl, rfl, rfl, rfl, rfl, rfl, rfl, rfl⟩,
   ⟨rfl, rfl, rfl, rfl⟩⟩

/-- Claim C10: a controller metadata record whose prefix is present but
equal to the empty string is treated exactly like one with the prefix
absent: it is skipped silently and contributes zero entries (the skip test
checks truthiness, not mere presence). -/
theorem empty_prefix_skipped (paths : OasPathsRoot) (m : ControllerMetadata)
    (h : m.prefixStr = some "") :
    processController paths (some m) = paths ∧
    processController paths (some m) = processController paths none := by
  constructor <;> simp [processController, h]

/-- Claim C10, witness: a concrete empty-string-prefix controller with a
route contributes nothing, exactly like absent metadata. -/
theorem empty_prefix_skipped_witness :
    processController [] (some exMeta10) = [] ∧
    processController [] (some exMeta10) = processController [] none :=
  empty_prefix_skipped [] exMeta10 rfl
